import Mathlib

/-!
Verification of the semantic task store of the ReceiptPrinterAgent
repository against its specification.

The embedding models the code of src/database/task_db.py (class
TaskDatabase: add_task, find_similar_tasks, get_recent_tasks) and the
ingestion loop of agent.py (the per-task dedup loop inside main).

Modelling conventions:
  - Python floats are modelled as rationals; the claims under
    verification only compare distances against thresholds and order
    them, which is exact over the rationals.
  - The OpenAI embedding provider (TaskDatabase.generate_embedding) is
    external; it is modelled as a parameter of type
    String to Except DBError Vec, failing with providerUnavailable.
  - The vendor SQL function vector_distance_cos is external; it is
    modelled as an abstract distance parameter of type
    Vec to Vec to Rat.
  - The SQL engine (libsql, a SQLite fork) executes ORDER BY as a
    stable sort over rows scanned in ascending rowid order; DESC is
    handled by reversing the comparator, so rows with equal keys come
    out in ascending rowid order for both ASC and DESC.  sortOn below
    is that stable sort.  The vector_top_k virtual table is modelled,
    following the specification text (the index scan is stable by
    insertion order), as yielding the k closest rows; combined with the
    trailing ORDER BY distance ASC this equals sorting all rows stably
    by distance and taking the first k.
  - created_at values are ISO-8601 strings stored in TEXT columns and
    compared by SQL as text, modelled by the lexicographic order on
    String.
-/

namespace TaskStore

/-- A float vector (an embedding), floats modelled as rationals. -/
abbrev Vec := List ℚ

/-- Failure modes surfaced by the store and its collaborators. -/
inductive DBError where
  | providerUnavailable : DBError
  | invalidArgument : DBError
  deriving DecidableEq, Repr

/-- The TaskRecord dataclass of task_db.py: every field optional or
defaulted exactly as in the source. -/
structure TaskRecord where
  id : Option Nat := none
  name : String := ""
  priority : Int := 2
  due_date : String := ""
  created_at : String := ""
  embedding : Option Vec := none
  email_context : Option String := none
  similarity_distance : Option ℚ := none
  deriving DecidableEq, Repr

/-- A persisted row of the tasks table.  add_task always writes a
non-null embedding, and nothing else writes the table, so the embedding
column is total in the model. -/
structure Row where
  id : Nat
  name : String
  priority : Int
  due_date : String
  created_at : String
  email_context : Option String
  embedding : Vec
  deriving DecidableEq, Repr

/-- Database state: the rows of the tasks table in insertion (rowid)
order, plus the AUTOINCREMENT counter that yields the next id. -/
structure DBState where
  rows : List Row
  nextId : Nat
  deriving DecidableEq, Repr

/-- The empty database right after _create_tables. -/
def DBState.empty : DBState := { rows := [], nextId := 1 }

/-- Well-formedness of a database state: rowids strictly increase along
the table (AUTOINCREMENT) and stay below the counter. -/
def WF (db : DBState) : Prop :=
  db.rows.Pairwise (fun a b => a.id < b.id) ∧ ∀ r ∈ db.rows, r.id < db.nextId

instance (db : DBState) : Decidable (WF db) := by
  unfold WF; infer_instance

/-- Insert x into a list sorted on key: x goes in front of the first
element whose key is not smaller, hence in front of elements of equal
key that occurred later in the scan (stability). -/
def insOn {α β : Type} [LinearOrder β] (key : α → β) (x : α) : List α → List α
  | [] => [x]
  | y :: ys => if key y < key x then y :: insOn key x ys else x :: y :: ys

/-- Stable insertion sort on a key, modelling the SQL engine's stable
ORDER BY over rows scanned in table order. -/
def sortOn {α β : Type} [LinearOrder β] (key : α → β) : List α → List α
  | [] => []
  | x :: xs => insOn key x (sortOn key xs)

/-- The provider boundary: text in, embedding vector or failure out. -/
abbrev EmbedFn := String → Except DBError Vec

/-- The vendor cosine-distance function, left abstract. -/
abbrev DistFn := Vec → Vec → ℚ

/-- The embedding input text built at the top of add_task:
the task name, with " Context: " and the context appended when the
context argument is truthy (Python: None and the empty string are both
falsy, so an empty context adds nothing). -/
def embeddingText (name : String) (email_context : Option String) : String :=
  match email_context with
  | none => name
  | some c => if c = "" then name else name ++ " Context: " ++ c

/-- TaskDatabase.add_task.  Generates the embedding from the task name
and optional context, inserts a row (id from AUTOINCREMENT, created_at
from the first datetime.now() call), and returns a freshly built
TaskRecord whose created_at comes from a second datetime.now() call.
now1 and now2 model the two timestamp captures in source order. -/
def add_task (embed : EmbedFn) (db : DBState) (task : TaskRecord)
    (email_context : Option String) (now1 now2 : String) :
    Except DBError (DBState × TaskRecord) :=
  match embed (embeddingText task.name email_context) with
  | .error e => .error e
  | .ok v =>
    let row : Row :=
      { id := db.nextId, name := task.name, priority := task.priority
        due_date := task.due_date, created_at := now1
        email_context := email_context, embedding := v }
    let db' : DBState := { rows := db.rows ++ [row], nextId := db.nextId + 1 }
    let ret : TaskRecord :=
      { id := some db.nextId, name := task.name, priority := task.priority
        due_date := task.due_date, created_at := now2
        embedding := some v, email_context := email_context
        similarity_distance := none }
    .ok (db', ret)

/-- The row-to-record conversion done while fetching rows of the
similarity query: all columns except the embedding, plus the computed
distance. -/
def rowToSimilar (dist : DistFn) (qv : Vec) (r : Row) : TaskRecord :=
  { id := some r.id, name := r.name, priority := r.priority
    due_date := r.due_date, created_at := r.created_at
    email_context := r.email_context, embedding := none
    similarity_distance := some (dist r.embedding qv) }

/-- TaskDatabase.find_similar_tasks.  Embeds the query text, then runs
the SQL: vector_top_k over the index joined back to the table, ordered
ascending by cosine distance.  The vendor top-k function rejects a
non-positive k; that check lives outside the repository and is
modelled from the spec (InvalidArgument for k below 1). -/
def find_similar_tasks (embed : EmbedFn) (dist : DistFn) (db : DBState)
    (query : String) (limit : Int) : Except DBError (List TaskRecord) :=
  match embed query with
  | .error e => .error e
  | .ok qv =>
    if limit < 1 then .error .invalidArgument
    else
      .ok (((sortOn (fun r => dist r.embedding qv) db.rows).take limit.toNat).map
        (rowToSimilar dist qv))

/-- The row-to-record conversion of the recency query: all columns
except the embedding, and no distance. -/
def rowToRecent (r : Row) : TaskRecord :=
  { id := some r.id, name := r.name, priority := r.priority
    due_date := r.due_date, created_at := r.created_at
    email_context := r.email_context, embedding := none
    similarity_distance := none }

/-- TaskDatabase.get_recent_tasks: ORDER BY created_at DESC LIMIT n.
The TEXT column is compared byte-wise (BINARY collation), modelled by
the lexicographic order on the character list of the string.
Descending order is the ascending stable sort on the dual of that
order; ties therefore stay in table-scan (ascending id) order, as the
SQLite sorter does. -/
def get_recent_tasks (db : DBState) (limit : Nat) : List TaskRecord :=
  ((sortOn (fun r => OrderDual.toDual r.created_at.data) db.rows).take
    limit).map rowToRecent

/-! ### The ingestion loop of agent.py (main) -/

/-- The pydantic Task model of agent.py: a candidate from the task
producer. -/
structure Task where
  name : String
  priority : Int
  due_date : String
  deriving DecidableEq, Repr

/-- The duplicate test of agent.py: the result list is non-empty and
the first (nearest) record's similarity_distance is below 0.1.  Query
results always carry a distance; on a missing distance Python would
raise, so that branch is unreachable and modelled as not-a-duplicate. -/
def isDuplicate (similar : List TaskRecord) : Bool :=
  match similar with
  | [] => false
  | r :: _ =>
    match r.similarity_distance with
    | some d => decide (d < mkRat 1 10)
    | none => false

/-- State accumulated across iterations of the loop in main: the
database plus the new_tasks and duplicate_tasks lists. -/
structure LoopState where
  db : DBState
  new_tasks : List Task
  duplicate_tasks : List Task
  deriving DecidableEq, Repr

/-- The TaskRecord built in main before calling add_task: name,
priority, due_date from the candidate, created_at from an agent-side
datetime.now() call, everything else left at its default. -/
def toDBRecord (t : Task) (nowAgent : String) : TaskRecord :=
  { name := t.name, priority := t.priority, due_date := t.due_date
    created_at := nowAgent }

/-- One iteration of the loop in main: query for similar tasks
(limit defaults to 5), reject as duplicate or insert via add_task.
nowAgent is the timestamp main puts on the record it hands to add_task
(which ignores it); now1 and now2 are add_task's own two captures.
Provider failures propagate (they escape the loop into the broad
except handler). -/
def processOne (embed : EmbedFn) (dist : DistFn)
    (nowAgent now1 now2 : String) (st : LoopState) (task : Task) :
    Except DBError LoopState :=
  match find_similar_tasks embed dist st.db task.name 5 with
  | .error e => .error e
  | .ok similar =>
    if isDuplicate similar then
      .ok { st with duplicate_tasks := st.duplicate_tasks ++ [task] }
    else
      match add_task embed st.db (toDBRecord task nowAgent) none now1 now2 with
      | .error e => .error e
      | .ok (db', _) =>
        .ok { db := db', new_tasks := st.new_tasks ++ [task]
              duplicate_tasks := st.duplicate_tasks }

/-- The loop over all candidates, in supplied order.  clock i yields
the three datetime.now() strings of iteration i.  On an error the loop
stops: the state reached so far is kept (each insert was committed)
and the error is carried out to the except handler. -/
def runLoop (embed : EmbedFn) (dist : DistFn)
    (clock : Nat → String × String × String) :
    List Task → Nat → LoopState → LoopState × Option DBError
  | [], _, st => (st, none)
  | t :: ts, i, st =>
    match processOne embed dist (clock i).1 (clock i).2.1 (clock i).2.2 st t with
    | .error e => (st, some e)
    | .ok st' => runLoop embed dist clock ts (i + 1) st'

/-- What the run prints at the end: on success, the saved count (only
when new tasks exist) and the duplicate count (only when duplicates
exist); on an exception the summary block is skipped and only the
error is printed. -/
structure RunReport where
  saved : Option Nat
  dups : Option Nat
  err : Option DBError
  deriving DecidableEq, Repr

/-- Builds the report from the loop outcome, mirroring the prints of
main: the two count lines are reached only when no exception escaped
the loop. -/
def mkReport (st : LoopState) (e : Option DBError) : RunReport :=
  match e with
  | some e => { saved := none, dups := none, err := some e }
  | none =>
    { saved := if st.new_tasks = [] then none else some st.new_tasks.length
      dups := if st.duplicate_tasks = [] then none
              else some st.duplicate_tasks.length
      err := none }

/-- The whole ingestion run of main over a batch of candidates. -/
def mainRun (embed : EmbedFn) (dist : DistFn)
    (clock : Nat → String × String × String) (db : DBState)
    (tasks : List Task) : LoopState × RunReport :=
  let (st, e) := runLoop embed dist clock tasks 0
    { db := db, new_tasks := [], duplicate_tasks := [] }
  (st, mkReport st e)

/-! ### Derived notions used to state the claims -/

/-- Projection to the success payload of an Except value. -/
def okPart {α : Type} : Except DBError α → Option α
  | .ok a => some a
  | .error _ => none

/-- The order a stable sort on a key establishes among the elements of
a list whose original order was R: strictly smaller key first, equal
keys kept in the original R order. -/
def keyLex {α β : Type} (key : α → β) [LT β] (R : α → α → Prop)
    (a b : α) : Prop :=
  key a < key b ∨ (key a = key b ∧ R a b)

/-- The order of similarity-query results: ascending distance, ties by
smaller id (earlier insertion) first. -/
def resLex (a b : TaskRecord) : Prop :=
  ∃ da db' ia ib, a.similarity_distance = some da ∧
    b.similarity_distance = some db' ∧ a.id = some ia ∧ b.id = some ib ∧
    (da < db' ∨ (da = db' ∧ ia < ib))

/-- The order the recency listing actually produces: descending
created_at, ties by smaller id (earlier insertion) first. -/
def recentLex (a b : TaskRecord) : Prop :=
  ∃ ia ib, a.id = some ia ∧ b.id = some ib ∧
    (b.created_at.data < a.created_at.data ∨
      (a.created_at = b.created_at ∧ ia < ib))

/-- The order the specification claims for the recency listing:
descending created_at, ties by larger id (later insertion) first. -/
def recentLexSpec (a b : TaskRecord) : Prop :=
  ∃ ia ib, a.id = some ia ∧ b.id = some ib ∧
    (b.created_at.data < a.created_at.data ∨
      (a.created_at = b.created_at ∧ ib < ia))

/-- The row written by the accept branch of one loop iteration. -/
def insertedRow (db : DBState) (t : Task) (now1 : String) (qv : Vec) :
    Row :=
  { id := db.nextId, name := t.name, priority := t.priority
    due_date := t.due_date, created_at := now1
    email_context := none, embedding := qv }

/-! ### Concrete data for witnesses and counterexamples -/

/-- A provider that always succeeds with a one-entry vector. -/
def wEmbed : EmbedFn := fun _ => .ok [1]

/-- A distance making every pair of vectors tie at distance zero. -/
def wDistZero : DistFn := fun _ _ => 0

/-- A distance reading off the head entry of the stored vector, giving
controllable distinct distances per row. -/
def wDistHead : DistFn := fun v _ => v.headI

/-- Two rows with equal created_at timestamps, ids 1 and 2. -/
def cRowA : Row :=
  { id := 1, name := "Submit quarterly report", priority := 1
    due_date := "2025-02-01", created_at := "2025-01-01T00:00:00"
    email_context := none, embedding := [1] }

/-- Second row, same created_at as cRowA, larger id. -/
def cRowB : Row :=
  { id := 2, name := "Buy groceries", priority := 2
    due_date := "2025-02-02", created_at := "2025-01-01T00:00:00"
    email_context := none, embedding := [2] }

/-- A small store holding cRowA and cRowB. -/
def cDB : DBState := { rows := [cRowA, cRowB], nextId := 3 }

/-- The provider of the failing ingestion run: it fails on the text
"B" and succeeds elsewhere. -/
def wEmbedFail : EmbedFn :=
  fun s => if s = "B" then .error .providerUnavailable else .ok [1]

/-- A constant clock for concrete runs. -/
def wClock : Nat → String × String × String := fun _ => ("t0", "t1", "t2")

/-- Candidate tasks used by the concrete runs. -/
def tA : Task := { name := "A", priority := 1, due_date := "2025-03-01" }

/-- The candidate whose embedding call fails under wEmbedFail. -/
def tB : Task := { name := "B", priority := 2, due_date := "2025-03-02" }

/-- A third candidate, never reached in the failing run. -/
def tC : Task := { name := "C", priority := 3, due_date := "2025-03-03" }

/-- Two providers that agree on the text "A Context: " but differ on
the text "A": they distinguish which text add_task really embeds when
the supplied email context is the empty string. -/
def ctxEmbed1 : EmbedFn := fun s => if s = "A" then .ok [0] else .ok [9]

/-- Second provider of the pair: same on "A Context: ", different on
"A". -/
def ctxEmbed2 : EmbedFn := fun s => if s = "A" then .ok [5] else .ok [9]

/-! ### Basic facts about the stable sort -/

theorem mem_insOn {α β : Type} [LinearOrder β] (key : α → β) (x z : α)
    (m : List α) : z ∈ insOn key x m ↔ z = x ∨ z ∈ m := by
  induction m with
  | nil => simp [insOn]
  | cons y ys ih =>
    simp only [insOn]
    split
    · simp only [List.mem_cons, ih]
      tauto
    · simp only [List.mem_cons]

theorem length_insOn {α β : Type} [LinearOrder β] (key : α → β) (x : α)
    (m : List α) : (insOn key x m).length = m.length + 1 := by
  induction m with
  | nil => simp [insOn]
  | cons y ys ih =>
    simp only [insOn]
    split
    · simp [ih]
    · simp

theorem mem_sortOn {α β : Type} [LinearOrder β] (key : α → β) (z : α)
    (l : List α) : z ∈ sortOn key l ↔ z ∈ l := by
  induction l with
  | nil => simp [sortOn]
  | cons x xs ih =>
    simp only [sortOn, mem_insOn, List.mem_cons, ih]

theorem length_sortOn {α β : Type} [LinearOrder β] (key : α → β)
    (l : List α) : (sortOn key l).length = l.length := by
  induction l with
  | nil => simp [sortOn]
  | cons x xs ih => simp [sortOn, length_insOn, ih]

theorem insOn_pairwise_lex {α β : Type} [LinearOrder β] {key : α → β}
    {R : α → α → Prop} {x : α} {m : List α}
    (hm : m.Pairwise (keyLex key R)) (hx : ∀ y ∈ m, R x y) :
    (insOn key x m).Pairwise (keyLex key R) := by
  induction m with
  | nil => simp [insOn]
  | cons y ys ih =>
    rw [List.pairwise_cons] at hm
    obtain ⟨hy, hys⟩ := hm
    simp only [insOn]
    split
    · rename_i hlt
      rw [List.pairwise_cons]
      refine ⟨?_, ih hys (fun z hz => hx z (List.mem_cons_of_mem y hz))⟩
      intro z hz
      rcases (mem_insOn key x z ys).mp hz with rfl | hz'
      · exact Or.inl hlt
      · exact hy z hz'
    · rename_i hnlt
      have hxy : key x ≤ key y := le_of_not_lt hnlt
      rw [List.pairwise_cons]
      refine ⟨?_, List.pairwise_cons.mpr ⟨hy, hys⟩⟩
      intro z hz
      rcases List.mem_cons.mp hz with rfl | hz'
      · rcases lt_or_eq_of_le hxy with h | h
        · exact Or.inl h
        · exact Or.inr ⟨h, hx z (List.mem_cons_self z ys)⟩
      · have hyz' : key y ≤ key z := by
          rcases hy z hz' with h | ⟨h, _⟩
          · exact le_of_lt h
          · exact le_of_eq h
        rcases lt_or_eq_of_le (le_trans hxy hyz') with h | h
        · exact Or.inl h
        · exact Or.inr ⟨h, hx z (List.mem_cons_of_mem y hz')⟩

/-- Stability: sorting a list that is pairwise R on a key yields a list
that is pairwise ordered by key, equal keys staying in R order. -/
theorem sortOn_pairwise_lex {α β : Type} [LinearOrder β] (key : α → β)
    {R : α → α → Prop} {l : List α} (hl : l.Pairwise R) :
    (sortOn key l).Pairwise (keyLex key R) := by
  induction l with
  | nil => simp [sortOn]
  | cons x xs ih =>
    rw [List.pairwise_cons] at hl
    exact insOn_pairwise_lex (ih hl.2)
      (fun y hy => hl.1 y ((mem_sortOn key y xs).mp hy))

/-! ### Helper facts about the store operations and the loop -/

/-- Every record returned by the similarity query carries a distance
and an id. -/
theorem find_ok_shape (embed : EmbedFn) (dist : DistFn) (db : DBState)
    (q : String) (k : Int) (rs : List TaskRecord)
    (h : find_similar_tasks embed dist db q k = .ok rs) :
    ∀ r ∈ rs, (∃ d, r.similarity_distance = some d) ∧
      ∃ n, r.id = some n := by
  unfold find_similar_tasks at h
  split at h
  · exact absurd h (by simp)
  · rename_i qv hq
    split at h
    · exact absurd h (by simp)
    · rename_i hk
      have hrs : rs = ((sortOn (fun r => dist r.embedding qv)
          db.rows).take k.toNat).map (rowToSimilar dist qv) := by
        injection h with h'
        exact h'.symm
      subst hrs
      intro r hr
      obtain ⟨row, _, hrow⟩ := List.mem_map.mp hr
      subst hrow
      exact ⟨⟨_, rfl⟩, ⟨_, rfl⟩⟩

/-- The duplicate test is false exactly when the dedup rule accepts:
no similar record, or the nearest one at distance at least 0.1. -/
theorem isDuplicate_false_iff (rs : List TaskRecord)
    (hd : ∀ r ∈ rs, ∃ d, r.similarity_distance = some d) :
    isDuplicate rs = false ↔
      (rs = [] ∨ ∃ r d, rs.head? = some r ∧
        r.similarity_distance = some d ∧ mkRat 1 10 ≤ d) := by
  cases rs with
  | nil => simp [isDuplicate]
  | cons r rest =>
    obtain ⟨d, hsd⟩ := hd r (List.mem_cons_self r rest)
    simp only [isDuplicate, hsd, decide_eq_false_iff_not, not_lt,
      List.head?_cons, List.cons_ne_nil, false_or]
    constructor
    · intro hle
      exact ⟨r, d, rfl, hsd, hle⟩
    · rintro ⟨r', d', hr', hsd', hle⟩
      injection hr' with hr'
      subst hr'
      rw [hsd] at hsd'
      injection hsd' with hsd'
      subst hsd'
      exact hle

/-- An accepted candidate is inserted: the resulting state appends the
new row to the table and the candidate to new_tasks. -/
theorem processOne_accept (embed : EmbedFn) (dist : DistFn)
    (nowA n1 n2 : String) (st : LoopState) (task : Task) (qv : Vec)
    (rs : List TaskRecord)
    (hrs : find_similar_tasks embed dist st.db task.name 5 = .ok rs)
    (hdup : isDuplicate rs = false)
    (hqv : embed task.name = .ok qv) :
    processOne embed dist nowA n1 n2 st task = .ok
      { db := { rows := st.db.rows ++ [insertedRow st.db task n1 qv]
                nextId := st.db.nextId + 1 }
        new_tasks := st.new_tasks ++ [task]
        duplicate_tasks := st.duplicate_tasks } := by
  unfold processOne
  rw [hrs]
  simp only [hdup, Bool.false_eq_true, if_false]
  unfold add_task
  have htxt : embeddingText (toDBRecord task nowA).name none = task.name := rfl
  rw [htxt, hqv]
  rfl

/-- A candidate flagged as duplicate is only recorded in
duplicate_tasks; the database is left untouched. -/
theorem processOne_reject (embed : EmbedFn) (dist : DistFn)
    (nowA n1 n2 : String) (st : LoopState) (task : Task)
    (rs : List TaskRecord)
    (hrs : find_similar_tasks embed dist st.db task.name 5 = .ok rs)
    (hdup : isDuplicate rs = true) :
    processOne embed dist nowA n1 n2 st task = .ok
      { db := st.db, new_tasks := st.new_tasks
        duplicate_tasks := st.duplicate_tasks ++ [task] } := by
  unfold processOne
  rw [hrs]
  simp only [hdup, if_true]

/-- Splitting the loop: after a failure-free prefix the loop continues
from the state the prefix reached. -/
theorem runLoop_append (embed : EmbedFn) (dist : DistFn)
    (clock : Nat → String × String × String) (pre : List Task) :
    ∀ (ts : List Task) (i : Nat) (st st1 : LoopState),
      runLoop embed dist clock pre i st = (st1, none) →
      runLoop embed dist clock (pre ++ ts) i st =
        runLoop embed dist clock ts (i + pre.length) st1 := by
  induction pre with
  | nil =>
    intro ts i st st1 h
    simp only [runLoop] at h
    injection h with h1 _
    subst h1
    simp [runLoop]
  | cons t pre' ih =>
    intro ts i st st1 h
    simp only [runLoop, List.cons_append] at h ⊢
    split at h
    · simp at h
    · rename_i st' hp
      have hlen : i + (t :: pre').length = (i + 1) + pre'.length := by
        simp only [List.length_cons]
        omega
      rw [hlen]
      exact ih ts (i + 1) st' st1 h

/-! ### The claims -/

/-- C2: for every store state and query, the nearest-neighbor query
with limit k returns at most k records ordered ascending by
similarity_distance, records of equal distance appearing in order of
smaller id (earlier insertion) first. -/
theorem find_similar_ordering (embed : EmbedFn) (dist : DistFn)
    (db : DBState) (q : String) (k : Int) (rs : List TaskRecord)
    (hWF : WF db) (h : find_similar_tasks embed dist db q k = .ok rs) :
    rs.length ≤ k.toNat ∧ rs.Pairwise resLex := by
  unfold find_similar_tasks at h
  split at h
  · exact absurd h (by simp)
  · rename_i qv hq
    split at h
    · exact absurd h (by simp)
    · have hrs : rs = ((sortOn (fun r => dist r.embedding qv)
          db.rows).take k.toNat).map (rowToSimilar dist qv) := by
        injection h with h'
        exact h'.symm
      subst hrs
      constructor
      · rw [List.length_map, List.length_take]
        exact min_le_left _ _
      · have h2 := sortOn_pairwise_lex
          (fun r => dist r.embedding qv) hWF.1
        have h3 := h2.sublist (List.take_sublist k.toNat _)
        refine List.pairwise_map.mpr (h3.imp ?_)
        intro a b hab
        exact ⟨dist a.embedding qv, dist b.embedding qv, a.id, b.id,
          rfl, rfl, rfl, rfl, hab⟩

/-- Witness for C2: a two-row store whose rows tie at distance zero;
the query returns both records, in ascending id order. -/
theorem find_similar_ordering_witness :
    ([rowToSimilar wDistZero [1] cRowA,
      rowToSimilar wDistZero [1] cRowB] : List TaskRecord).length ≤
        (2 : Int).toNat ∧
    ([rowToSimilar wDistZero [1] cRowA,
      rowToSimilar wDistZero [1] cRowB] : List TaskRecord).Pairwise resLex :=
  find_similar_ordering wEmbed wDistZero cDB "q" 2 _ (by decide) rfl

/-- C5 amended: the recency listing returns up to limit records in
descending created_at order, records with equal created_at appearing
in ascending id order (earlier insertion first), not descending. -/
theorem get_recent_ordering (db : DBState) (lim : Nat) (hWF : WF db) :
    (get_recent_tasks db lim).length ≤ lim ∧
      (get_recent_tasks db lim).Pairwise recentLex := by
  constructor
  · rw [get_recent_tasks, List.length_map, List.length_take]
    exact min_le_left _ _
  · have h2 := sortOn_pairwise_lex
      (fun r => OrderDual.toDual r.created_at.data) hWF.1
    have h3 := h2.sublist (List.take_sublist lim _)
    refine List.pairwise_map.mpr (h3.imp ?_)
    intro a b hab
    refine ⟨a.id, b.id, rfl, rfl, ?_⟩
    rcases hab with h | ⟨h, hid⟩
    · exact Or.inl (OrderDual.toDual_lt_toDual.mp h)
    · exact Or.inr ⟨String.ext (OrderDual.toDual_inj.mp h), hid⟩

/-- Witness for the amended C5: on the two-row store with equal
timestamps the listing obeys the amended order. -/
theorem get_recent_ordering_witness :
    (get_recent_tasks cDB 2).length ≤ 2 ∧
      (get_recent_tasks cDB 2).Pairwise recentLex :=
  get_recent_ordering cDB 2 (by decide)

/-- Counterexample to C5 as stated: two rows share a created_at; the
listing returns the smaller id first, so the claimed
larger-id-first tie order fails. -/
theorem get_recent_tie_counterexample :
    cRowA.created_at = cRowB.created_at ∧
    (get_recent_tasks cDB 2).map TaskRecord.id = [some 1, some 2] ∧
    ¬ (get_recent_tasks cDB 2).Pairwise recentLexSpec := by
  refine ⟨rfl, by decide, ?_⟩
  intro hp
  have hres : get_recent_tasks cDB 2 =
      [rowToRecent cRowA, rowToRecent cRowB] := by decide
  rw [hres, List.pairwise_cons] at hp
  obtain ⟨ia, ib, ha, hb, hor⟩ := hp.1 (rowToRecent cRowB) (by simp)
  rcases hor with h1 | ⟨_, h3⟩
  · exact absurd h1 (by decide)
  · have hia : ia = 1 := by simpa [rowToRecent, cRowA] using ha.symm
    have hib : ib = 2 := by simpa [rowToRecent, cRowB] using hb.symm
    omega

/-- C1: a candidate processed by the ingestion loop is accepted (one
row inserted, candidate appended to new_tasks) iff the similarity
query returned no record or the nearest record's distance is at least
the threshold 0.1; otherwise it is rejected: recorded as duplicate
with the store untouched. -/
theorem ingest_dedup_rule (embed : EmbedFn) (dist : DistFn)
    (nowA n1 n2 : String) (st : LoopState) (task : Task) (qv : Vec)
    (rs : List TaskRecord)
    (hqv : embed task.name = .ok qv)
    (hrs : find_similar_tasks embed dist st.db task.name 5 = .ok rs) :
    ((processOne embed dist nowA n1 n2 st task = .ok
        { db := { rows := st.db.rows ++ [insertedRow st.db task n1 qv]
                  nextId := st.db.nextId + 1 }
          new_tasks := st.new_tasks ++ [task]
          duplicate_tasks := st.duplicate_tasks }) ↔
      (rs = [] ∨ ∃ r d, rs.head? = some r ∧
        r.similarity_distance = some d ∧ mkRat 1 10 ≤ d)) ∧
    (¬ (rs = [] ∨ ∃ r d, rs.head? = some r ∧
        r.similarity_distance = some d ∧ mkRat 1 10 ≤ d) →
      processOne embed dist nowA n1 n2 st task = .ok
        { db := st.db, new_tasks := st.new_tasks
          duplicate_tasks := st.duplicate_tasks ++ [task] }) := by
  have hshape := find_ok_shape embed dist st.db task.name 5 rs hrs
  have hiff := isDuplicate_false_iff rs (fun r hr => (hshape r hr).1)
  constructor
  · constructor
    · intro heq
      cases hdup : isDuplicate rs with
      | false => exact hiff.mp hdup
      | true =>
        rw [processOne_reject embed dist nowA n1 n2 st task rs hrs hdup]
          at heq
        injection heq with heq
        have hnt := congrArg LoopState.new_tasks heq
        simp at hnt
    · intro hcond
      exact processOne_accept embed dist nowA n1 n2 st task qv rs hrs
        (hiff.mpr hcond) hqv
  · intro hncond
    have hdup : isDuplicate rs = true := by
      cases hd : isDuplicate rs with
      | false => exact absurd (hiff.mp hd) hncond
      | true => rfl
    exact processOne_reject embed dist nowA n1 n2 st task rs hrs hdup

/-- Witness for C1: on an empty store the query returns nothing and
the candidate is accepted and inserted. -/
theorem ingest_dedup_rule_witness :
    processOne wEmbed wDistZero "t0" "t1" "t2"
        { db := DBState.empty, new_tasks := [], duplicate_tasks := [] }
        tA = .ok
      { db := { rows := DBState.empty.rows ++
                  [insertedRow DBState.empty tA "t1" [1]]
                nextId := DBState.empty.nextId + 1 }
        new_tasks := [] ++ [tA]
        duplicate_tasks := [] } :=
  (ingest_dedup_rule wEmbed wDistZero "t0" "t1" "t2"
    { db := DBState.empty, new_tasks := [], duplicate_tasks := [] }
    tA [1] [] rfl rfl).1.mpr (Or.inl rfl)

/-- C6: a candidate the dedup policy rejects (nearest record closer
than 0.1) is only recorded in duplicate_tasks; the database state is
exactly the incoming one, so no stored record is inserted, deleted or
altered. -/
theorem dedup_reject_frame (embed : EmbedFn) (dist : DistFn)
    (nowA n1 n2 : String) (st : LoopState) (task : Task)
    (rs : List TaskRecord) (r : TaskRecord) (d : ℚ)
    (hrs : find_similar_tasks embed dist st.db task.name 5 = .ok rs)
    (hh : rs.head? = some r) (hsd : r.similarity_distance = some d)
    (hlt : d < mkRat 1 10) :
    processOne embed dist nowA n1 n2 st task = .ok
      { db := st.db, new_tasks := st.new_tasks
        duplicate_tasks := st.duplicate_tasks ++ [task] } := by
  have hdup : isDuplicate rs = true := by
    cases rs with
    | nil => simp at hh
    | cons r0 rest =>
      rw [List.head?_cons] at hh
      injection hh with hh
      subst hh
      simp [isDuplicate, hsd, hlt]
  exact processOne_reject embed dist nowA n1 n2 st task rs hrs hdup

/-- Witness for C6: a store already holding two rows that tie at
distance zero to the query rejects the candidate and stays unchanged. -/
theorem dedup_reject_frame_witness :
    processOne wEmbed wDistZero "t0" "t1" "t2"
        { db := cDB, new_tasks := [], duplicate_tasks := [] } tA = .ok
      { db := cDB, new_tasks := []
        duplicate_tasks := [] ++ [tA] } :=
  dedup_reject_frame wEmbed wDistZero "t0" "t1" "t2"
    { db := cDB, new_tasks := [], duplicate_tasks := [] } tA
    [rowToSimilar wDistZero [1] cRowA, rowToSimilar wDistZero [1] cRowB]
    (rowToSimilar wDistZero [1] cRowA) 0 rfl rfl rfl (by decide)

/-- C3: once the provider call succeeds, the similarity query fails
with InvalidArgument for every k below 1, and on an empty store it
returns the empty sequence, not an error, for every k at least 1. -/
theorem find_similar_k_validation (embed : EmbedFn) (dist : DistFn)
    (q : String) (qv : Vec) (h : embed q = .ok qv) :
    (∀ (db : DBState) (k : Int), k < 1 →
      find_similar_tasks embed dist db q k = .error .invalidArgument) ∧
    (∀ k : Int, 1 ≤ k →
      find_similar_tasks embed dist DBState.empty q k = .ok []) := by
  constructor
  · intro db k hk
    unfold find_similar_tasks
    rw [h]
    simp [hk]
  · intro k hk
    unfold find_similar_tasks
    rw [h]
    simp [not_lt.mpr hk, DBState.empty, sortOn]

/-- Witness for C3: k = 0 is rejected, and k = 3 on the empty store
yields the empty list. -/
theorem find_similar_k_validation_witness :
    find_similar_tasks wEmbed wDistZero cDB "q" 0 =
        .error .invalidArgument ∧
      find_similar_tasks wEmbed wDistZero DBState.empty "q" 3 = .ok [] :=
  ⟨(find_similar_k_validation wEmbed wDistZero "q" [1] rfl).1 cDB 0
      (by decide),
   (find_similar_k_validation wEmbed wDistZero "q" [1] rfl).2 3
      (by decide)⟩

/-- Counterexample to C4 as stated: with the empty string supplied as
email_context, add_task does not embed the claimed text
"A Context: " — two providers that agree on that text but differ on
the bare name "A" produce different insert results, so the text
actually passed to the provider is just the name. -/
theorem embed_text_counterexample :
    ctxEmbed1 ("A" ++ " Context: " ++ "") =
        ctxEmbed2 ("A" ++ " Context: " ++ "") ∧
      okPart (add_task ctxEmbed1 DBState.empty { name := "A" } (some "")
          "t1" "t2") ≠
        okPart (add_task ctxEmbed2 DBState.empty { name := "A" } (some "")
          "t1" "t2") := by
  exact ⟨rfl, by decide⟩

/-- C4 amended: the text given to the provider at insert time is the
name when no email_context is supplied or the supplied context is the
empty string (Python truthiness), and name ++ " Context: " ++ context
when a non-empty context is supplied; add_task consults the provider
at exactly that text. -/
theorem embed_text_amended (e1 e2 : EmbedFn) (db : DBState)
    (task : TaskRecord) (n1 n2 : String) :
    (e1 task.name = e2 task.name →
      add_task e1 db task none n1 n2 = add_task e2 db task none n1 n2) ∧
    (∀ c : String, c ≠ "" →
      e1 (task.name ++ " Context: " ++ c) =
        e2 (task.name ++ " Context: " ++ c) →
      add_task e1 db task (some c) n1 n2 =
        add_task e2 db task (some c) n1 n2) ∧
    (e1 task.name = e2 task.name →
      add_task e1 db task (some "") n1 n2 =
        add_task e2 db task (some "") n1 n2) ∧
    embeddingText task.name none = task.name ∧
    (∀ c : String, c ≠ "" →
      embeddingText task.name (some c) = task.name ++ " Context: " ++ c) ∧
    embeddingText task.name (some "") = task.name := by
  refine ⟨?_, ?_, ?_, rfl, ?_, rfl⟩
  · intro hagree
    unfold add_task
    rw [show embeddingText task.name none = task.name from rfl, hagree]
  · intro c hc hagree
    unfold add_task
    simp only [embeddingText, if_neg hc]
    rw [hagree]
  · intro hagree
    unfold add_task
    rw [show embeddingText task.name (some "") = task.name from rfl, hagree]
  · intro c hc
    simp [embeddingText, hc]

/-- Witness for the amended C4: a non-empty context is appended with
the literal separator, and equal providers at the name yield equal
inserts without context. -/
theorem embed_text_amended_witness :
    embeddingText "A" (some "ctx") = "A" ++ " Context: " ++ "ctx" ∧
      add_task wEmbed DBState.empty { name := "A" } none "t1" "t2" =
        add_task wEmbed DBState.empty { name := "A" } none "t1" "t2" :=
  ⟨(embed_text_amended wEmbed wEmbed DBState.empty { name := "A" }
      "t1" "t2").2.2.2.2.1 "ctx" (by decide),
   (embed_text_amended wEmbed wEmbed DBState.empty { name := "A" }
      "t1" "t2").1 rfl⟩

/-- Counterexample to C7 as stated: the two datetime.now() captures of
add_task can differ; then the created_at of the returned record (the
second capture) is not the created_at persisted in the store (the
first capture). -/
theorem insert_timestamp_counterexample :
    (okPart (add_task wEmbed DBState.empty { name := "A" } none
        "T1" "T2")).map (fun p => p.2.created_at) = some "T2" ∧
    (okPart (add_task wEmbed DBState.empty { name := "A" } none
        "T1" "T2")).map (fun p => p.1.rows.map Row.created_at) =
      some ["T1"] ∧
    ("T2" : String) ≠ "T1" :=
  ⟨rfl, rfl, by decide⟩

/-- C7 amended: a successful insert captures two timestamps: the
persisted row carries the first and the returned record the second
(equal only when the captures coincide); the returned record is fully
populated (id, name, priority, due_date, created_at, embedding) and
carries no similarity_distance. -/
theorem insert_two_timestamps (embed : EmbedFn) (db : DBState)
    (task : TaskRecord) (ctx : Option String) (n1 n2 : String) (qv : Vec)
    (h : embed (embeddingText task.name ctx) = .ok qv) :
    add_task embed db task ctx n1 n2 = .ok
      ({ rows := db.rows ++
            [{ id := db.nextId, name := task.name
               priority := task.priority, due_date := task.due_date
               created_at := n1, email_context := ctx, embedding := qv }]
         nextId := db.nextId + 1 },
       { id := some db.nextId, name := task.name
         priority := task.priority, due_date := task.due_date
         created_at := n2, embedding := some qv, email_context := ctx
         similarity_distance := none }) := by
  unfold add_task
  rw [h]

/-- Witness for the amended C7: one concrete insert, spelled out. -/
theorem insert_two_timestamps_witness :
    add_task wEmbed DBState.empty { name := "A" } none "T1" "T2" = .ok
      ({ rows := [{ id := 1, name := "A", priority := 2, due_date := ""
                    created_at := "T1", email_context := none
                    embedding := [1] }]
         nextId := 2 },
       { id := some 1, name := "A", priority := 2, due_date := ""
         created_at := "T2", embedding := some [1], email_context := none
         similarity_distance := none }) :=
  insert_two_timestamps wEmbed DBState.empty { name := "A" } none
    "T1" "T2" [1] rfl

/-- C9: records returned by the similarity query and by the recency
listing never carry the stored embedding (the field is none), while
the row persisted by an insert does store the full generated vector. -/
theorem results_omit_embedding :
    (∀ (embed : EmbedFn) (dist : DistFn) (db : DBState) (q : String)
        (k : Int) (rs : List TaskRecord),
      find_similar_tasks embed dist db q k = .ok rs →
      ∀ r ∈ rs, r.embedding = none) ∧
    (∀ (db : DBState) (lim : Nat),
      ∀ r ∈ get_recent_tasks db lim, r.embedding = none) ∧
    (∀ (embed : EmbedFn) (db : DBState) (task : TaskRecord)
        (ctx : Option String) (n1 n2 : String) (db' : DBState)
        (ret : TaskRecord) (qv : Vec),
      embed (embeddingText task.name ctx) = .ok qv →
      add_task embed db task ctx n1 n2 = .ok (db', ret) →
      db'.rows.map Row.embedding = db.rows.map Row.embedding ++ [qv]) := by
  refine ⟨?_, ?_, ?_⟩
  · intro embed dist db q k rs h r hr
    unfold find_similar_tasks at h
    split at h
    · exact absurd h (by simp)
    · split at h
      · exact absurd h (by simp)
      · have hrs := (Except.ok.injEq _ _).mp h
        rw [← hrs] at hr
        obtain ⟨row, _, hrow⟩ := List.mem_map.mp hr
        rw [← hrow]
        rfl
  · intro db lim r hr
    obtain ⟨row, _, hrow⟩ := List.mem_map.mp hr
    rw [← hrow]
    rfl
  · intro embed db task ctx n1 n2 db' ret qv h h2
    unfold add_task at h2
    rw [h] at h2
    injection h2 with h2
    rw [Prod.mk.injEq] at h2
    obtain ⟨hdb, -⟩ := h2
    rw [← hdb]
    simp

/-- Witness for C9: a record returned by the recency listing on the
two-row store carries no embedding. -/
theorem results_omit_embedding_witness :
    (rowToRecent cRowA).embedding = none :=
  results_omit_embedding.2.1 cDB 2 (rowToRecent cRowA) (by decide)

/-- C10: insert ignores caller-set id and created_at: add_task yields
an identical outcome whatever the caller put there, and the persisted
row's id is the store counter and its created_at the store's own
timestamp capture. -/
theorem insert_ignores_caller_fields (embed : EmbedFn) (db : DBState)
    (task : TaskRecord) (a : Option Nat) (b : String)
    (ctx : Option String) (n1 n2 : String) :
    add_task embed db { task with id := a, created_at := b } ctx n1 n2 =
      add_task embed db task ctx n1 n2 ∧
    (okPart (add_task embed db task ctx n1 n2)).map
        (fun p => p.1.rows.map (fun r => (r.id, r.created_at))) =
      (okPart (embed (embeddingText task.name ctx))).map
        (fun _ => db.rows.map (fun r => (r.id, r.created_at)) ++
          [(db.nextId, n1)]) := by
  constructor
  · rfl
  · cases hv : embed (embeddingText task.name ctx) with
    | error e => simp [add_task, hv, okPart]
    | ok v => simp [add_task, hv, okPart]

/-- C8 amended: when the provider fails on a candidate, the ingestion
run stops at that candidate: inserts committed for earlier candidates
are retained, no later candidate is processed, and the run reports the
error alone — the counts of candidates processed before the failure
are not reported. -/
theorem ingest_provider_failure (embed : EmbedFn) (dist : DistFn)
    (clock : Nat → String × String × String) (db0 : DBState)
    (pre post : List Task) (bad : Task) (e : DBError) (st1 : LoopState)
    (hpre : runLoop embed dist clock pre 0
        { db := db0, new_tasks := [], duplicate_tasks := [] } =
      (st1, none))
    (hbad : embed bad.name = .error e) :
    mainRun embed dist clock db0 (pre ++ bad :: post) =
      (st1, { saved := none, dups := none, err := some e }) := by
  unfold mainRun
  rw [runLoop_append embed dist clock pre (bad :: post) 0 _ st1 hpre]
  have hfail : processOne embed dist (clock (0 + pre.length)).1
      (clock (0 + pre.length)).2.1 (clock (0 + pre.length)).2.2
      st1 bad = .error e := by
    unfold processOne find_similar_tasks
    rw [hbad]
  simp only [runLoop, hfail, mkReport]

/-- Witness for the amended C8: candidate A is accepted, the provider
fails on B, C is never processed; the final state keeps A's insert and
the report holds only the error. -/
theorem ingest_provider_failure_witness :
    mainRun wEmbedFail wDistZero wClock DBState.empty ([tA] ++ tB :: [tC]) =
      ({ db := { rows := [insertedRow DBState.empty tA "t1" [1]]
                 nextId := 2 }
         new_tasks := [tA], duplicate_tasks := [] },
       { saved := none, dups := none, err := some .providerUnavailable }) :=
  ingest_provider_failure wEmbedFail wDistZero wClock DBState.empty
    [tA] [tC] tB .providerUnavailable _ rfl rfl

/-- Counterexample to C8 as stated: in this failing run one candidate
was processed and accepted before the provider failure, yet the run
reports neither a saved count nor a duplicate count — only the error —
so the number of candidates processed before the failure is not
reported. -/
theorem ingest_failure_report_counterexample :
    (mainRun wEmbedFail wDistZero wClock DBState.empty
        [tA, tB]).1.new_tasks = [tA] ∧
    (mainRun wEmbedFail wDistZero wClock DBState.empty
        [tA, tB]).2.saved = none ∧
    (mainRun wEmbedFail wDistZero wClock DBState.empty
        [tA, tB]).2.dups = none ∧
    (mainRun wEmbedFail wDistZero wClock DBState.empty
        [tA, tB]).2.err = some .providerUnavailable :=
  ⟨rfl, rfl, rfl, rfl⟩

end TaskStore
